import Mathlib

/-!
Verification model of the OpenMDAO sqlite case reader
(`openmdao/recorders/sqlite_reader_new.py`): iteration-coordinate splitting,
the coordinate hierarchy resolver (`SqliteCaseReader.get_cases`,
`_find_child_cases`, `_is_case_child`), the per-category case stores
(`DriverCases.get_case` and friends) and the open-time key loading
(`SqliteCaseReader._load`).

Coordinates are plain strings; a store is the relevant projection of the
sqlite tables.  Python exceptions are modelled by an `Except` error channel.
CPython identity tests on interned literals and cached small integers
(`is ''`, `is not 0`, `len(...) is expected_child_length`) are modelled as
value equality, which is how they behave on the values that reach them.
-/

namespace OMRead

/-- Drop a leading run of decimal digits, mirroring the greedy `\d+` part of the
iteration-coordinate delimiter pattern. -/
def dropDigits : List Char → List Char
  | [] => []
  | c :: cs => if c.isDigit then dropDigits cs else c :: cs

/-- Drop a leading run of pipe characters, mirroring the greedy trailing `\|*`
part of the delimiter pattern. -/
def dropPipes : List Char → List Char
  | [] => []
  | c :: cs => if c = '|' then dropPipes cs else c :: cs

/-- True when the list starts with a decimal digit. -/
def headIsDigit : List Char → Bool
  | [] => false
  | c :: _ => c.isDigit

/-- Fuel-indexed scanner for Python `re.split` with the compiled pattern
`\|\d+\|*` (`_coord_split_re` in `sqlite_reader_new.py`): a delimiter match is
a pipe, one or more digits (greedy), then zero or more pipes (greedy); the
pieces of text between the non-overlapping leftmost matches are returned,
including empty end pieces.  Any fuel of at least the character count plus one
gives the exact `re.split` behaviour, since every step consumes at least one
character. -/
def splitAuxF : Nat → List Char → List Char → List (List Char)
  | 0, _, acc => [acc.reverse]
  | fuel + 1, s, acc =>
    match s with
    | [] => [acc.reverse]
    | c :: rest =>
      if c = '|' ∧ headIsDigit rest then
        acc.reverse :: splitAuxF fuel (dropPipes (dropDigits rest)) []
      else
        splitAuxF fuel rest (c :: acc)

/-- Model of `_coord_split_re.split(s)`. -/
def coordSplit (s : String) : List String :=
  (splitAuxF (s.data.length + 1) s.data []).map String.mk

/-- Model of `len(_coord_split_re.split(s))`: the segment count of a
coordinate. -/
def numSegs (s : String) : Nat := (coordSplit s).length

/-- Model of Python `coordinate.startswith(parent)`. -/
def strStartsWith (s pre : String) : Bool := pre.data.isPrefixOf s.data

/-- Event category tag attached to the entries produced by
`_find_child_cases` and to the rows yielded by `get_cases`. -/
inductive Cat
  | driver
  | solver
  | system
  | problem
deriving DecidableEq

/-- Python exceptions that the modelled reader code can raise.
`fuelExhausted` is an artifact of the fuel-indexed recursion and is never
produced when the fuel bound chosen by `getCasesList` is used. -/
inductive PyErr
  | valueError
  | typeError
  | operationalError
  | caseNotFound
  | fuelExhausted
deriving DecidableEq

/-- Model of the `coord_lengths` computation inside
`SqliteCaseReader.get_cases` (lines 620-626): start from `[2]` (the driver
iteration coordinate length), append each solver coordinate's segment count
not already present, then sort. -/
def computeCoordLengths (solverIter : List (String × Nat)) : List Nat :=
  List.insertionSort (· ≤ ·)
    (solverIter.foldl
      (fun acc s => if numSegs s.1 ∈ acc then acc else acc ++ [numSegs s.1]) [2])

/-- Model of `coord_lengths.index(par_len if par_len is not 0 else 2)`
(line 668): the first index of the looked-up value, or `none` where Python
raises `ValueError`. -/
def parLenIdx (coordLengths : List Nat) (parLen : Nat) : Option Nat :=
  coordLengths.findIdx? (fun x => x = if parLen = 0 then 2 else parLen)

/-- Model of `coord_lengths[par_len_idx + 1] if par_len_idx <
len(coord_lengths) - 1 else -1` (lines 669-670). -/
def expectedChildLength (cl : List Nat) (idx : Nat) : Int :=
  if idx < cl.length - 1 then ((cl.getD (idx + 1) 0 : Nat) : Int) else -1

/-- Model of `SqliteCaseReader._is_case_child` (lines 703-727): the candidate
starts with the parent coordinate as a literal string prefix and its segment
count equals the expected child length. -/
def isCaseChild (parentCoordinate coordinate : String) (expectedChildLen : Int) : Bool :=
  strStartsWith coordinate parentCoordinate && ((numSegs coordinate : Int) == expectedChildLen)

/-- Model of `SqliteCaseReader._find_child_cases` (lines 639-701), indexed by
fuel so that the recursion is structural.  The recursion depth of the Python
function is bounded by the index of the parent length inside the
duplicate-free sorted `coord_lengths` list, so any fuel of at least
`coordLengths.length + 2` reproduces it exactly.  The three loops mirror the
source: at the root, all driver coordinates (tagged `driver`), else the solver
coordinates whose length is `coord_lengths[1]`; under a concrete parent, the
solver coordinates passing `_is_case_child`. -/
def findChildCases : Nat → String → List String → List String → List (String × Nat) →
    Bool → List Nat → Except PyErr (List (String × Cat))
  | 0 => fun _ _ _ _ _ _ => .error .fuelExhausted
  | fuel + 1 => fun parentIterCoord splitParentIterCoord driverIter solverIter recursive
      coordLengths =>
    let recur := findChildCases fuel
    match parLenIdx coordLengths splitParentIterCoord.length with
    | none => .error .valueError
    | some parIdx =>
      let expectedChildLen := expectedChildLength coordLengths parIdx
      if parentIterCoord = "" then
        if 0 < driverIter.length then
          driverIter.foldlM (fun ret d => do
            let rest ← if recursive then
                recur d (coordSplit d) driverIter solverIter recursive coordLengths
              else pure []
            pure (ret ++ (d, Cat.driver) :: rest)) []
        else if 0 < solverIter.length then
          let minIterLen : Int := if 1 < coordLengths.length then
              ((coordLengths.getD 1 0 : Nat) : Int) else -1
          solverIter.foldlM (fun ret s =>
            if (numSegs s.1 : Int) = minIterLen then do
              let rest ← if recursive then
                  recur s.1 (coordSplit s.1) driverIter solverIter recursive coordLengths
                else pure []
              pure (ret ++ (s.1, Cat.solver) :: rest)
            else pure ret) []
        else pure []
      else
        solverIter.foldlM (fun ret s =>
          if isCaseChild parentIterCoord s.1 expectedChildLen then do
            let rest ← if recursive then
                recur s.1 (coordSplit s.1) driverIter solverIter recursive coordLengths
              else pure []
            pure (ret ++ (s.1, Cat.solver) :: rest)
          else pure ret) []

/-- Decoded variable values of one recorded event.  Derivative and scaling
arithmetic is out of scope (spec section 1), so values are opaque named
integers. -/
abbrev Values := List (String × Int)

/-- Modelled from the spec: the Value Decoder's `json_to_np_array`
(`openmdao.utils.record_util`, not under `src/`) decodes a self-describing
stored value against metadata; the numeric content is out of scope, so the
decoded payload is carried through unchanged. -/
def json_to_np_array (v : Values) : Values := v

/-- Modelled from the spec: the Value Decoder's legacy binary path
`blob_to_array` (`openmdao.recorders.sqlite_recorder`, not under `src/`). -/
def blob_to_array (v : Values) : Values := v

/-- Row of the `driver_iterations` table:
`(id, counter, iteration_coordinate, timestamp, success, msg, inputs, outputs)`. -/
structure DriverRow where
  id : Nat := 0
  counter : Nat := 0
  coord : String := ""
  timestamp : Int := 0
  success : Bool := true
  msg : String := ""
  inputsBlob : Values := []
  outputsBlob : Values := []
deriving DecidableEq

/-- Row of the `solver_iterations` table: `(id, counter, iteration_coordinate,
timestamp, success, msg, abs_err, rel_err, inputs, outputs, residuals)`. -/
structure SolverRow where
  id : Nat := 0
  counter : Nat := 0
  coord : String := ""
  timestamp : Int := 0
  success : Bool := true
  msg : String := ""
  absErr : Int := 0
  relErr : Int := 0
  inputsBlob : Values := []
  outputsBlob : Values := []
  residualsBlob : Values := []
deriving DecidableEq

/-- Row of the `system_iterations` table. -/
structure SystemRow where
  id : Nat := 0
  counter : Nat := 0
  coord : String := ""
  timestamp : Int := 0
  success : Bool := true
  msg : String := ""
  inputsBlob : Values := []
  outputsBlob : Values := []
  residualsBlob : Values := []
deriving DecidableEq

/-- Row of the `driver_derivatives` table. -/
structure DerivRow where
  id : Nat := 0
  counter : Nat := 0
  coord : String := ""
  timestamp : Int := 0
  success : Bool := true
  msg : String := ""
  totalsBlob : Values := []
deriving DecidableEq

/-- Row of the `problem_cases` table, keyed by `case_name`. -/
structure ProblemRow where
  id : Nat := 0
  counter : Nat := 0
  caseName : String := ""
  timestamp : Int := 0
  success : Bool := true
  msg : String := ""
  outputsBlob : Values := []
deriving DecidableEq

/-- Projection of a recorded sqlite store: the five iteration tables, in row
id order.  `driver_derivatives` and `problem_cases` are optional because
version-1 stores may lack them entirely (`none` models an absent table). -/
structure Store where
  driverIterations : List DriverRow := []
  driverDerivatives : Option (List DerivRow) := some []
  systemIterations : List SystemRow := []
  solverIterations : List SolverRow := []
  problemCases : Option (List ProblemRow) := some []

/-- Rows of `driver_iterations` as returned by `ORDER BY counter ASC`. -/
def sortByCounterD (rows : List DriverRow) : List DriverRow :=
  List.insertionSort (fun a b => a.counter ≤ b.counter) rows

/-- Rows of `solver_iterations` as returned by `ORDER BY counter ASC`. -/
def sortByCounterS (rows : List SolverRow) : List SolverRow :=
  List.insertionSort (fun a b => a.counter ≤ b.counter) rows

/-- Model of `SqliteCaseReader.get_cases` (lines 575-637) restricted to the
identity and category of the yielded cases.  The `problem` and `driver`
sources replay those tables in store order; any other source string is an
iteration coordinate (the empty string standing for the root): both iteration
tables are fetched ordered by counter, `coord_lengths` is computed from the
solver coordinates, and `_find_child_cases` produces the `(coordinate, tag)`
pairs that the generator then materializes. -/
def getCasesList (store : Store) (source : String) (recurse : Bool) :
    Except PyErr (List (String × Cat)) :=
  if source = "problem" then
    match store.problemCases with
    | none => .error .operationalError
    | some rows => .ok (rows.map (fun r => (r.caseName, Cat.problem)))
  else if source = "driver" then
    .ok (store.driverIterations.map (fun r => (r.coord, Cat.driver)))
  else
    let driverIter := (sortByCounterD store.driverIterations).map (fun r => r.coord)
    let solverIter := (sortByCounterS store.solverIterations).map
      (fun r => (r.coord, r.counter))
    let splitIterCoord := if source = "" then [] else coordSplit source
    let coordLengths := computeCoordLengths solverIter
    findChildCases (coordLengths.length + 2) source splitIterCoord driverIter solverIter
      recurse coordLengths

/-- Counter of the table row that `get_cases` materializes for one yielded
entry: entries tagged `driver` are fetched from `driver_iterations` by
coordinate, everything else from `solver_iterations` (the generator's
`if iteration[1] is 'driver' ... else ...`). -/
def yieldCounter (store : Store) (item : String × Cat) : Nat :=
  match item.2 with
  | Cat.driver =>
    ((store.driverIterations.find? (fun r => r.coord == item.1)).map
      (fun r => r.counter)).getD 0
  | _ =>
    ((store.solverIterations.find? (fun r => r.coord == item.1)).map
      (fun r => r.counter)).getD 0

/-- Counters of the cases yielded by `get_cases`, in yield order. -/
def getCasesCounters (store : Store) (source : String) (recurse : Bool) :
    Except PyErr (List Nat) :=
  (getCasesList store source recurse).map (fun l => l.map (yieldCounter store))

/-- One materialized driver case (the fields of `DriverCase` that this model
tracks).  `isScaled` stands for the effect of `Case.scale()`, whose arithmetic
is out of scope. -/
structure Case where
  counter : Nat
  iterationCoordinate : String
  timestamp : Int
  success : Bool
  msg : String
  inputs : Values
  outputs : Values
  isScaled : Bool := false
deriving DecidableEq

/-- Model of `DriverCases._extract_case_from_row` (lines 1118-1145): unpack the
row and decode inputs and outputs through the version-dispatched decoder. -/
def extractCaseFromRow (formatVersion : Nat) (row : DriverRow) : Case :=
  let inputsArray := if 3 ≤ formatVersion then json_to_np_array row.inputsBlob
    else blob_to_array row.inputsBlob
  let outputsArray := if 3 ≤ formatVersion then json_to_np_array row.outputsBlob
    else blob_to_array row.outputsBlob
  { counter := row.counter, iterationCoordinate := row.coord,
    timestamp := row.timestamp, success := row.success, msg := row.msg,
    inputs := inputsArray, outputs := outputsArray }

/-- Modelled from the spec: `Case.scale` (`openmdao.recorders.case`, not under
`src/`) applies recorded scaling factors to a case's values; here it marks the
copy as scaled.  `get_case` always applies it to a `deepcopy`, never to the
cached object. -/
def scaleCase (c : Case) : Case := { c with isScaled := true }

/-- State owned by one `DriverCases` store: the backing table and the `_cases`
cache mapping coordinates to already-constructed cases. -/
structure DriverCasesState where
  formatVersion : Nat := 1
  table : List DriverRow := []
  cache : List (String × Case) := []
deriving DecidableEq

/-- Model of `DriverCases.get_case` (lines 1172-1214).  String case ids pass
through `get_iteration_coordinate` unchanged (modelled from the spec:
`BaseCases` lives in `openmdao.recorders.cases`, not under `src/`; the same
holds for its empty initial `_cases` dict).  On a cache miss the point query's
`fetchone()` result is unpacked by `_extract_case_from_row`, which on a
missing row (`None`) raises a `TypeError`; the constructed case is cached
before any scaling.  The returned `Nat` counts the row extractions (decodes)
performed by the call. -/
def getCase (st : DriverCasesState) (caseId : String) (scaled : Bool) :
    Except PyErr (Case × DriverCasesState × Nat) :=
  let iterationCoordinate := caseId
  match st.cache.find? (fun e => e.1 == iterationCoordinate) with
  | some e =>
    .ok (if scaled then scaleCase e.2 else e.2, st, 0)
  | none =>
    match st.table.find? (fun r => r.coord == iterationCoordinate) with
    | none => .error .typeError
    | some row =>
      let c := extractCaseFromRow st.formatVersion row
      let st' : DriverCasesState :=
        { st with cache := (c.iterationCoordinate, c) :: st.cache }
      .ok (if scaled then scaleCase c else c, st', 1)

/-- Modelled from the spec: the recorder's current `format_version` constant
(`openmdao.recorders.sqlite_recorder`, not under `src/`); the spec documents
format versions 1 through 4. -/
def maxFormatVersion : Nat := 4

/-- Coordinate key lists loaded at open time, one per category. -/
structure CaseKeys where
  driverKeys : List String
  derivKeys : List String
  systemKeys : List String
  solverKeys : List String
  problemKeys : List String
deriving DecidableEq

/-- Model of the `_case_keys` loading part of `SqliteCaseReader._load`
(lines 480-524): versions outside `range(1, format_version + 1)` fail with
`ValueError`; each table's coordinates are read in id order; a missing
`driver_derivatives` or `problem_cases` table raises `OperationalError`,
which is swallowed for format version 1 (the key list stays at its initial
empty value, modelled from the spec since `BaseCases.__init__` is not under
`src/`) and re-raised for version 2 and later. -/
def loadCaseKeys (version : Nat) (st : Store) : Except PyErr CaseKeys :=
  if 1 ≤ version ∧ version ≤ maxFormatVersion then do
    let driverKeys := st.driverIterations.map (fun r => r.coord)
    let derivKeys ← match st.driverDerivatives with
      | some rows => pure (rows.map (fun r => r.coord))
      | none =>
        if 2 ≤ version then Except.error PyErr.operationalError else pure []
    let systemKeys := st.systemIterations.map (fun r => r.coord)
    let solverKeys := st.solverIterations.map (fun r => r.coord)
    let problemKeys ← match st.problemCases with
      | some rows => pure (rows.map (fun r => r.caseName))
      | none =>
        if 2 ≤ version then Except.error PyErr.operationalError else pure []
    pure ⟨driverKeys, derivKeys, systemKeys, solverKeys, problemKeys⟩
  else .error .valueError

/-- Stated from the spec's words for claim C2: the direct children of the
implicit root are all driver coordinates in store order tagged `driver` when
any exist, and otherwise the solver coordinates whose segment count equals the
smallest non-root segment count present (the root's conventional count being
the base driver length 2), tagged `solver`; with no driver and no solver
coordinates there are no children. -/
def rootChildrenSpec (driverIter : List String) (solverIter : List (String × Nat)) :
    List (String × Cat) :=
  if driverIter ≠ [] then driverIter.map (fun d => (d, Cat.driver))
  else
    match ((solverIter.map (fun s => numSegs s.1)).filter (fun n => n ≠ 2)).min? with
    | none => []
    | some m =>
      (solverIter.filter (fun s => numSegs s.1 = m)).map (fun s => (s.1, Cat.solver))

/-- Stated from the spec's words for claim C3: the sorted set of distinct
segment counts observed across the coordinates of every category, plus the
base driver-coordinate length 2. -/
def coordLengthsSpec (driver dderiv system solver problem : List String) : List Nat :=
  List.insertionSort (· ≤ ·)
    ((2 :: (driver ++ dderiv ++ system ++ solver ++ problem).map numSegs).dedup)

/-- Store for the C3 counterexample: one driver row and one three-segment
system coordinate, no solver rows. -/
def c3store : Store :=
  { driverIterations := [{ coord := "rank0:D|0", counter := 1 }],
    systemIterations := [{ coord := "a|1|b|2|c", counter := 2 }] }

/-- Store for the C4 witness: a system coordinate nested under the driver
coordinate. -/
def c4store : Store :=
  { driverIterations := [{ coord := "rank0:D|0", counter := 1 }],
    systemIterations := [{ coord := "rank0:D|0|root._solve_nonlinear|0", counter := 2 }] }

/-- Store for the C6 failing input, with the counters the recorder assigns: the
inner solver iterations complete (and record) before their parent, so counters
increase from the deepest child up to the driver iteration. -/
def c6store : Store :=
  { driverIterations := [{ coord := "rank0:SLSQP|0", counter := 3 }],
    solverIterations :=
      [{ coord := "rank0:SLSQP|0|root._solve_nonlinear|0|NLRunOnce|0", counter := 1 },
       { coord := "rank0:SLSQP|0|root._solve_nonlinear|0", counter := 2 }] }

/-- Store for the C10 failing input: no solver rows, so `coord_lengths` is
`[2]`. -/
def c10store : Store :=
  { driverIterations := [{ coord := "rank0:D|0", counter := 1 }] }

/-- Store for the C7 witness: both optional tables absent. -/
def c7store : Store :=
  { driverIterations := [{ coord := "rank0:D|0", counter := 1 }],
    driverDerivatives := none,
    problemCases := none }

/-- Backing row for the C8 and C9 witnesses. -/
def c8row : DriverRow := { coord := "rank0:SLSQP|0", counter := 1 }

/-- Fresh driver-cases state over `c8row` with an empty cache. -/
def c8state : DriverCasesState := { formatVersion := 1, table := [c8row], cache := [] }

/-- Case decoded from `c8row`. -/
def c8case : Case := extractCaseFromRow 1 c8row

/-- State after the first `get_case` populated the cache. -/
def c8state' : DriverCasesState :=
  { formatVersion := 1, table := [c8row], cache := [("rank0:SLSQP|0", c8case)] }

/-- Fresh driver-cases state for the C9 witness. -/
def c9state : DriverCasesState := { formatVersion := 1, table := [c8row], cache := [] }

/-- State after the scaled `get_case` cached the unscaled case. -/
def c9state' : DriverCasesState :=
  { formatVersion := 1, table := [c8row], cache := [("rank0:SLSQP|0", c8case)] }

/-- Folding the non-recursive child-collecting loop body over a list appends
exactly the filtered, tagged entries. -/
theorem foldlM_collect {α : Type} (test : α → Bool) (f : α → String × Cat) :
    ∀ (l : List α) (acc : List (String × Cat)),
      List.foldlM (m := Except PyErr)
        (fun ret s => if test s then pure (ret ++ [f s]) else pure ret) acc l
        = .ok (acc ++ (l.filter test).map f) := by
  intro l
  induction l with
  | nil => intro acc; simp [List.foldlM]; rfl
  | cons x xs ih =>
    intro acc
    by_cases hx : test x
    · simp only [List.foldlM_cons, hx, if_pos]
      have : (pure (acc ++ [f x]) : Except PyErr (List (String × Cat))) >>=
          (fun b => List.foldlM (fun ret s => if test s then pure (ret ++ [f s]) else pure ret) b xs)
          = List.foldlM (fun ret s => if test s then pure (ret ++ [f s]) else pure ret) (acc ++ [f x]) xs := rfl
      rw [this, ih]
      simp [hx]
    · simp only [List.foldlM_cons, hx, if_neg, Bool.false_eq_true, not_false_iff]
      have : (pure acc : Except PyErr (List (String × Cat))) >>=
          (fun b => List.foldlM (fun ret s => if test s then pure (ret ++ [f s]) else pure ret) b xs)
          = List.foldlM (fun ret s => if test s then pure (ret ++ [f s]) else pure ret) acc xs := rfl
      rw [this, ih]
      simp [hx]

/-- C1 helper: the non-recursive concrete-parent branch of `_find_child_cases`
is the prefix-and-length filter over the solver iteration list. -/
theorem findChildCases_nonrec_concrete (fuel : Nat) (p : String) (sp : List String)
    (driverIter : List String) (solverIter : List (String × Nat)) (cl : List Nat)
    (i : Nat) (hp : p ≠ "") (hidx : parLenIdx cl sp.length = some i) :
    findChildCases (fuel + 1) p sp driverIter solverIter false cl
      = .ok ((solverIter.filter
          (fun s => isCaseChild p s.1 (expectedChildLength cl i))).map
            (fun s => (s.1, Cat.solver))) := by
  rw [findChildCases]
  simp only [hidx, if_neg hp]
  exact foldlM_collect _ _ solverIter []

/-- C1: with a non-root parent and its computed expected child length, a
solver coordinate is a direct child iff it has the parent as a literal string
prefix and its segment count equals the expected child length. -/
theorem c1_direct_children_iff (fuel : Nat) (p : String) (sp : List String)
    (driverIter : List String) (solverIter : List (String × Nat)) (cl : List Nat)
    (i : Nat) (hp : p ≠ "") (hidx : parLenIdx cl sp.length = some i) :
    ∃ out, findChildCases (fuel + 1) p sp driverIter solverIter false cl = .ok out ∧
      (∀ c : String, ((c, Cat.solver) ∈ out ↔
        ∃ k, (c, k) ∈ solverIter ∧ strStartsWith c p = true ∧
          (numSegs c : Int) = expectedChildLength cl i)) ∧
      (∀ c : String, strStartsWith c p = true →
        (numSegs c : Int) ≠ expectedChildLength cl i → (c, Cat.solver) ∉ out) := by
  refine ⟨_, findChildCases_nonrec_concrete fuel p sp driverIter solverIter cl i hp hidx, ?_, ?_⟩
  · intro c
    simp only [List.mem_map, List.mem_filter, isCaseChild, Bool.and_eq_true, beq_iff_eq]
    constructor
    · rintro ⟨⟨a, k⟩, ⟨hmem, hpre, hlen⟩, heq⟩
      injection heq with h1 h2
      subst h1
      exact ⟨k, hmem, hpre, hlen⟩
    · rintro ⟨k, hmem, hpre, hlen⟩
      exact ⟨(c, k), ⟨hmem, hpre, hlen⟩, rfl⟩
  · intro c hpre hne hc
    simp only [List.mem_map, List.mem_filter, isCaseChild, Bool.and_eq_true,
      beq_iff_eq] at hc
    rcases hc with ⟨⟨a, k⟩, ⟨hmem, hpre2, hlen⟩, heq⟩
    injection heq with h1 h2
    subst h1
    exact hne hlen

/-- Concrete instantiation of `c1_direct_children_iff`: parent `a|0` at
expected child length 3 picks up `a|0|b|0` and excludes the deeper
`a|0|b|0|c|0`. -/
theorem c1_witness :
    ("a|0" : String) ≠ "" ∧
    parLenIdx [2, 3, 4] ((coordSplit "a|0").length) = some 0 ∧
    (∃ out, findChildCases 1 "a|0" (coordSplit "a|0") []
        [("a|0|b|0", 5), ("a|0|b|0|c|0", 6)] false [2, 3, 4] = .ok out ∧
      (∀ c : String, ((c, Cat.solver) ∈ out ↔
        ∃ k, (c, k) ∈ [("a|0|b|0", 5), ("a|0|b|0|c|0", 6)] ∧
          strStartsWith c "a|0" = true ∧
          (numSegs c : Int) = expectedChildLength [2, 3, 4] 0)) ∧
      (∀ c : String, strStartsWith c "a|0" = true →
        (numSegs c : Int) ≠ expectedChildLength [2, 3, 4] 0 →
          (c, Cat.solver) ∉ out)) :=
  ⟨by decide, by decide,
    c1_direct_children_iff 0 "a|0" (coordSplit "a|0") []
      [("a|0|b|0", 5), ("a|0|b|0|c|0", 6)] [2, 3, 4] 0 (by decide) (by decide)⟩

/-- Membership in the length-collecting fold of `get_cases`. -/
theorem coordLengths_fold_mem :
    ∀ (l : List (String × Nat)) (acc : List Nat) (n : Nat),
      (n ∈ l.foldl
        (fun acc s => if numSegs s.1 ∈ acc then acc else acc ++ [numSegs s.1]) acc)
        ↔ n ∈ acc ∨ ∃ s ∈ l, numSegs s.1 = n := by
  intro l
  induction l with
  | nil => simp
  | cons x xs ih =>
    intro acc n
    simp only [List.foldl_cons]
    by_cases hx : numSegs x.1 ∈ acc
    · rw [if_pos hx, ih]
      constructor
      · rintro (h | ⟨s, hs, rfl⟩)
        · exact Or.inl h
        · exact Or.inr ⟨s, List.mem_cons_of_mem _ hs, rfl⟩
      · rintro (h | ⟨s, hs, rfl⟩)
        · exact Or.inl h
        · rcases List.mem_cons.1 hs with rfl | hs
          · exact Or.inl hx
          · exact Or.inr ⟨s, hs, rfl⟩
    · rw [if_neg hx, ih]
      simp only [List.mem_append, List.mem_cons, List.mem_singleton]
      aesop

/-- The length-collecting fold preserves freedom from duplicates. -/
theorem coordLengths_fold_nodup :
    ∀ (l : List (String × Nat)) (acc : List Nat), acc.Nodup →
      (l.foldl
        (fun acc s => if numSegs s.1 ∈ acc then acc else acc ++ [numSegs s.1]) acc).Nodup := by
  intro l
  induction l with
  | nil => intro acc h; simpa using h
  | cons x xs ih =>
    intro acc h
    simp only [List.foldl_cons]
    by_cases hx : numSegs x.1 ∈ acc
    · rw [if_pos hx]; exact ih acc h
    · rw [if_neg hx]
      refine ih _ ?_
      simp [List.nodup_append, h, hx]

/-- Membership characterization of the resolver's `coord_lengths` list. -/
theorem mem_computeCoordLengths (solverIter : List (String × Nat)) (n : Nat) :
    n ∈ computeCoordLengths solverIter ↔ n = 2 ∨ ∃ s ∈ solverIter, numSegs s.1 = n := by
  unfold computeCoordLengths
  rw [(List.perm_insertionSort _ _).mem_iff, coordLengths_fold_mem]
  simp

/-- The resolver's `coord_lengths` list has no duplicates. -/
theorem computeCoordLengths_nodup (solverIter : List (String × Nat)) :
    (computeCoordLengths solverIter).Nodup :=
  ((List.perm_insertionSort _ _).nodup_iff).2
    (coordLengths_fold_nodup solverIter [2] (by simp))

/-- The resolver's `coord_lengths` list is sorted. -/
theorem computeCoordLengths_sorted (solverIter : List (String × Nat)) :
    (computeCoordLengths solverIter).Sorted (· ≤ ·) :=
  List.sorted_insertionSort _ _

/-- Folding the non-recursive root-driver loop body appends every driver
coordinate, tagged. -/
theorem foldlM_collect_all {α : Type} (f : α → String × Cat) :
    ∀ (l : List α) (acc : List (String × Cat)),
      List.foldlM (m := Except PyErr) (fun ret d => pure (ret ++ [f d])) acc l
        = .ok (acc ++ l.map f) := by
  intro l
  induction l with
  | nil => intro acc; simp [List.foldlM]; rfl
  | cons x xs ih =>
    intro acc
    have h : (pure (acc ++ [f x]) : Except PyErr (List (String × Cat))) >>=
        (fun b => List.foldlM (fun ret d => pure (ret ++ [f d])) b xs)
        = List.foldlM (fun ret d => pure (ret ++ [f d])) (acc ++ [f x]) xs := rfl
    simp only [List.foldlM_cons, h, ih]
    simp

/-- Version of `foldlM_collect` for a decidable propositional test. -/
theorem foldlM_collectP {α : Type} (test : α → Prop) [DecidablePred test]
    (f : α → String × Cat) :
    ∀ (l : List α) (acc : List (String × Cat)),
      List.foldlM (m := Except PyErr)
        (fun ret s => if test s then pure (ret ++ [f s]) else pure ret) acc l
        = .ok (acc ++ (l.filter (fun s => decide (test s))).map f) := by
  intro l
  induction l with
  | nil => intro acc; simp [List.foldlM]; rfl
  | cons x xs ih =>
    intro acc
    by_cases hx : test x
    · have h : (pure (acc ++ [f x]) : Except PyErr (List (String × Cat))) >>=
          (fun b => List.foldlM
            (fun ret s => if test s then pure (ret ++ [f s]) else pure ret) b xs)
          = List.foldlM (fun ret s => if test s then pure (ret ++ [f s]) else pure ret)
            (acc ++ [f x]) xs := rfl
      simp only [List.foldlM_cons, if_pos hx, h, ih]
      simp [hx]
    · have h : (pure acc : Except PyErr (List (String × Cat))) >>=
          (fun b => List.foldlM
            (fun ret s => if test s then pure (ret ++ [f s]) else pure ret) b xs)
          = List.foldlM (fun ret s => if test s then pure (ret ++ [f s]) else pure ret)
            acc xs := rfl
      simp only [List.foldlM_cons, if_neg hx, h, ih]
      simp [hx]

/-- Shape of the resolver's `coord_lengths` for well-formed solver
coordinates (each of at least two segments): either every solver coordinate
has exactly the base count 2, and the list is `[2]`, or the list starts with
`2` followed by the least solver segment count above 2. -/
theorem computeCoordLengths_cases (solverIter : List (String × Nat))
    (hwf : ∀ s ∈ solverIter, 2 ≤ numSegs s.1) :
    (computeCoordLengths solverIter = [2] ∧ ∀ s ∈ solverIter, numSegs s.1 = 2) ∨
    (∃ m t, computeCoordLengths solverIter = 2 :: m :: t ∧ 2 < m ∧
      (∃ s ∈ solverIter, numSegs s.1 = m) ∧
      (∀ s ∈ solverIter, numSegs s.1 ≠ 2 → m ≤ numSegs s.1)) := by
  have hmem := mem_computeCoordLengths solverIter
  have hnd := computeCoordLengths_nodup solverIter
  have hsort := computeCoordLengths_sorted solverIter
  have h2 : 2 ∈ computeCoordLengths solverIter := (hmem 2).2 (Or.inl rfl)
  cases hL : computeCoordLengths solverIter with
  | nil =>
    rw [hL] at h2
    exact absurd h2 (List.not_mem_nil 2)
  | cons a t =>
    rw [hL] at hmem hnd hsort h2
    obtain ⟨hale, hsortt⟩ := List.sorted_cons.1 hsort
    obtain ⟨hanot, hndt⟩ := List.nodup_cons.1 hnd
    have ha : a = 2 := by
      rcases List.mem_cons.1 h2 with h' | h'
      · exact h'.symm
      · have hle : a ≤ 2 := hale 2 h'
        have hge : 2 ≤ a := by
          rcases (hmem a).1 (List.mem_cons_self a t) with h'' | ⟨s, hs, hlen⟩
          · omega
          · exact hlen ▸ hwf s hs
        omega
    subst ha
    cases t with
    | nil =>
      left
      refine ⟨rfl, fun s hs => ?_⟩
      have := (hmem (numSegs s.1)).2 (Or.inr ⟨s, hs, rfl⟩)
      simpa using this
    | cons b t' =>
      right
      have hbmem : b ∈ 2 :: b :: t' := List.mem_cons_of_mem _ (List.mem_cons_self b t')
      have hbne : b ≠ 2 := by
        intro h'
        exact hanot (h' ▸ List.mem_cons_self b t')
      have hbsolver : ∃ s ∈ solverIter, numSegs s.1 = b := by
        rcases (hmem b).1 hbmem with h' | h'
        · exact absurd h' hbne
        · exact h'
      have hb2 : 2 < b := by
        rcases hbsolver with ⟨s, hs, hlen⟩
        have := hwf s hs
        omega
      refine ⟨b, t', rfl, hb2, hbsolver, ?_⟩
      intro s hs hne
      have hmem' : numSegs s.1 ∈ 2 :: b :: t' :=
        (hmem (numSegs s.1)).2 (Or.inr ⟨s, hs, rfl⟩)
      rcases List.mem_cons.1 hmem' with h' | h'
      · exact absurd h' hne
      · rcases List.mem_cons.1 h' with h'' | h''
        · omega
        · exact (List.sorted_cons.1 hsortt).1 _ h''

/-- C2: for the implicit root, the resolver's direct children are exactly
those described by `rootChildrenSpec`: all driver coordinates in store order
when any exist, otherwise the solver coordinates at the smallest non-root
segment count, and the empty list when both iteration lists are empty. -/
theorem c2_root_children (fuel : Nat) (driverIter : List String)
    (solverIter : List (String × Nat))
    (hwf : ∀ s ∈ solverIter, 2 ≤ numSegs s.1) :
    findChildCases (fuel + 1) "" [] driverIter solverIter false
      (computeCoordLengths solverIter) = .ok (rootChildrenSpec driverIter solverIter) := by
  have h2 : 2 ∈ computeCoordLengths solverIter :=
    (mem_computeCoordLengths solverIter 2).2 (Or.inl rfl)
  obtain ⟨i, hi⟩ : ∃ i, parLenIdx (computeCoordLengths solverIter) 0 = some i := by
    cases hp : parLenIdx (computeCoordLengths solverIter) 0 with
    | some i => exact ⟨i, rfl⟩
    | none =>
      exfalso
      unfold parLenIdx at hp
      have := List.findIdx?_eq_none_iff.1 hp 2 h2
      simp at this
  rw [findChildCases]
  simp only [List.length_nil, hi, if_true]
  by_cases hd : driverIter = []
  · subst hd
    simp only [List.length_nil, lt_self_iff_false, if_false]
    by_cases hs : solverIter = []
    · subst hs
      rfl
    · have hlen : 0 < solverIter.length := List.length_pos.2 hs
      rw [if_pos hlen]
      rcases computeCoordLengths_cases solverIter hwf with ⟨hcl, hall⟩ |
        ⟨m, t, hcl, hm2, hmsolver, hleast⟩
      · rw [hcl]
        simp only [List.length_singleton, lt_self_iff_false, if_false]
        refine (foldlM_collectP (fun s : String × Nat => (numSegs s.1 : Int) = -1)
          (fun s => (s.1, Cat.solver)) solverIter []).trans ?_
        have hfilter : solverIter.filter
            (fun s => decide ((numSegs s.1 : Int) = -1)) = [] := by
          rw [List.filter_eq_nil_iff]
          intro s hs'
          simp only [decide_eq_true_eq]
          omega
        have hfilter2 : (solverIter.map (fun s => numSegs s.1)).filter
            (fun n => !decide (n = 2)) = [] := by
          rw [List.filter_eq_nil_iff]
          intro n hn
          rcases List.mem_map.1 hn with ⟨s, hs', rfl⟩
          simp [hall s hs']
        rw [hfilter]
        unfold rootChildrenSpec
        simp [hfilter2]
      · rw [hcl]
        have hlen2 : 1 < (2 :: m :: t).length := by simp
        rw [if_pos hlen2]
        simp only [List.getD_cons_succ, List.getD_cons_zero]
        refine (foldlM_collectP
          (fun s : String × Nat => (numSegs s.1 : Int) = (m : Int))
          (fun s => (s.1, Cat.solver)) solverIter []).trans ?_
        have hm? : ((solverIter.map (fun s => numSegs s.1)).filter
            (fun n => !decide (n = 2))).min? = some m := by
          rw [List.min?_eq_some_iff']
          constructor
          · rcases hmsolver with ⟨s, hs', hlen'⟩
            refine List.mem_filter.2 ⟨List.mem_map.2 ⟨s, hs', hlen'⟩, ?_⟩
            simp
            omega
          · intro b hb
            rcases List.mem_filter.1 hb with ⟨hb1, hb2⟩
            rcases List.mem_map.1 hb1 with ⟨s, hs', rfl⟩
            have : numSegs s.1 ≠ 2 := by simpa using hb2
            exact hleast s hs' this
        have hfc : solverIter.filter
            (fun s => decide ((numSegs s.1 : Int) = (m : Int)))
            = solverIter.filter (fun s => decide (numSegs s.1 = m)) := by
          apply List.filter_congr
          intro s hs'
          simp
        rw [hfc]
        unfold rootChildrenSpec
        simp [hm?]
  · have hdl : 0 < driverIter.length := List.length_pos.2 hd
    rw [if_pos hdl]
    refine (foldlM_collect_all (fun d => (d, Cat.driver)) driverIter []).trans ?_
    unfold rootChildrenSpec
    rw [if_pos hd]
    simp

/-- Bind on `Except` applied to a success. -/
theorem except_bind_ok {ε α β : Type} (a : α) (f : α → Except ε β) :
    ((Except.ok a : Except ε α) >>= f) = f a := rfl

/-- Bind on `Except` applied to a failure. -/
theorem except_bind_error {ε α β : Type} (e : ε) (f : α → Except ε β) :
    ((Except.error e : Except ε α) >>= f) = .error e := rfl

/-- Pure on `Except` is `ok`. -/
theorem except_pure {ε α : Type} (a : α) : (pure a : Except ε α) = .ok a := rfl

/-- Invariant propagation through `foldlM` over `Except`. -/
theorem foldlM_tag_inv {α : Type}
    (step : List (String × Cat) → α → Except PyErr (List (String × Cat)))
    (P : String × Cat → Prop)
    (hstep : ∀ acc a out, step acc a = .ok out → (∀ x ∈ acc, P x) → ∀ x ∈ out, P x) :
    ∀ (l : List α) (acc out : List (String × Cat)),
      List.foldlM step acc l = .ok out → (∀ x ∈ acc, P x) → ∀ x ∈ out, P x := by
  intro l
  induction l with
  | nil =>
    intro acc out h hacc
    rw [show List.foldlM step acc [] = pure acc from rfl, except_pure] at h
    injection h with h
    exact h ▸ hacc
  | cons a l ih =>
    intro acc out h hacc
    rw [List.foldlM_cons] at h
    cases hstep' : step acc a with
    | error e => rw [hstep', except_bind_error] at h; cases h
    | ok mid =>
      rw [hstep', except_bind_ok] at h
      exact ih mid out h (hstep acc a mid hstep' hacc)

/-- Outcome analysis of one child-collecting loop step body. -/
theorem step_ok_cases (r : Bool) (rec : Except PyErr (List (String × Cat)))
    (acc : List (String × Cat)) (e : String × Cat) (out' : List (String × Cat))
    (h : (if r = true then do
            let y ← rec
            pure (acc ++ e :: y)
          else do
            let y ← (pure [] : Except PyErr (List (String × Cat)))
            pure (acc ++ e :: y)) = .ok out') :
    ∃ rest, out' = acc ++ e :: rest ∧ (rest = [] ∨ (r = true ∧ rec = .ok rest)) := by
  by_cases hrr : r = true
  · rw [if_pos hrr] at h
    cases hrec : rec with
    | error ε => rw [hrec, except_bind_error] at h; cases h
    | ok rest =>
      rw [hrec, except_bind_ok, except_pure] at h
      injection h with h
      exact ⟨rest, h.symm, Or.inr ⟨hrr, rfl⟩⟩
  · rw [if_neg hrr] at h
    rw [show ((do
        let y ← (pure [] : Except PyErr (List (String × Cat)))
        pure (acc ++ e :: y))) = (pure (acc ++ e :: []) : Except PyErr _) from rfl,
      except_pure] at h
    injection h with h
    exact ⟨[], h.symm, Or.inl rfl⟩

/-- Every entry produced by `_find_child_cases` is tagged `driver` or
`solver`: the resolver consumes only the driver and solver iteration lists. -/
theorem findChildCases_tags :
    ∀ (fuel : Nat) (p : String) (sp driverIter : List String)
      (solverIter : List (String × Nat)) (r : Bool) (cl : List Nat)
      (out : List (String × Cat)),
      findChildCases fuel p sp driverIter solverIter r cl = .ok out →
      ∀ x ∈ out, x.2 = Cat.driver ∨ x.2 = Cat.solver := by
  intro fuel
  induction fuel with
  | zero =>
    intro p sp d s r cl out h
    rw [findChildCases] at h
    cases h
  | succ fuel ih =>
    intro p sp d s r cl out h
    rw [findChildCases] at h
    beta_reduce at h
    cases hpi : parLenIdx cl sp.length with
    | none => rw [hpi] at h; cases h
    | some i =>
      rw [hpi] at h
      simp only at h
      by_cases hp : p = ""
      · rw [if_pos hp] at h
        by_cases hd : 0 < d.length
        · rw [if_pos hd] at h
          refine foldlM_tag_inv _ _ ?_ d [] out h (by simp)
          intro acc a out' hstep hacc y hy
          rcases step_ok_cases r _ acc (a, Cat.driver) out' hstep with
            ⟨rest, rfl, hrest⟩
          rcases List.mem_append.1 hy with hy | hy
          · exact hacc y hy
          · rcases List.mem_cons.1 hy with rfl | hy
            · exact Or.inl rfl
            · rcases hrest with rfl | ⟨-, hrec⟩
              · cases hy
              · exact ih a (coordSplit a) d s r cl rest hrec y hy
        · rw [if_neg hd] at h
          by_cases hsl : 0 < s.length
          · rw [if_pos hsl] at h
            refine foldlM_tag_inv _ _ ?_ s [] out h (by simp)
            intro acc a out' hstep hacc y hy
            by_cases htest : (numSegs a.1 : Int)
                = (if 1 < cl.length then ((cl.getD 1 0 : Nat) : Int) else -1)
            · rw [if_pos htest] at hstep
              rcases step_ok_cases r _ acc (a.1, Cat.solver) out' hstep with
                ⟨rest, rfl, hrest⟩
              rcases List.mem_append.1 hy with hy | hy
              · exact hacc y hy
              · rcases List.mem_cons.1 hy with rfl | hy
                · exact Or.inr rfl
                · rcases hrest with rfl | ⟨-, hrec⟩
                  · cases hy
                  · exact ih a.1 (coordSplit a.1) d s r cl rest hrec y hy
            · rw [if_neg htest, except_pure] at hstep
              injection hstep with hstep
              exact hacc y (hstep ▸ hy)
          · rw [if_neg hsl, except_pure] at h
            injection h with h
            rw [← h]
            intro x hx
            cases hx
      · rw [if_neg hp] at h
        refine foldlM_tag_inv _ _ ?_ s [] out h (by simp)
        intro acc a out' hstep hacc y hy
        by_cases htest : isCaseChild p a.1 (expectedChildLength cl i) = true
        · rw [if_pos htest] at hstep
          rcases step_ok_cases r _ acc (a.1, Cat.solver) out' hstep with
            ⟨rest, rfl, hrest⟩
          rcases List.mem_append.1 hy with hy | hy
          · exact hacc y hy
          · rcases List.mem_cons.1 hy with rfl | hy
            · exact Or.inr rfl
            · rcases hrest with rfl | ⟨-, hrec⟩
              · cases hy
              · exact ih a.1 (coordSplit a.1) d s r cl rest hrec y hy
        · rw [if_neg htest, except_pure] at hstep
          injection hstep with hstep
          exact hacc y (hstep ▸ hy)

/-- Tags of everything yielded by `get_cases`: only driver, solver or problem
category cases are ever produced. -/
theorem getCasesList_tags (st : Store) (source : String) (recurse : Bool)
    (out : List (String × Cat)) (h : getCasesList st source recurse = .ok out) :
    ∀ x ∈ out, x.2 = Cat.driver ∨ x.2 = Cat.solver ∨ x.2 = Cat.problem := by
  unfold getCasesList at h
  by_cases h1 : source = "problem"
  · rw [if_pos h1] at h
    cases hpc : st.problemCases with
    | none => rw [hpc] at h; cases h
    | some rows =>
      rw [hpc] at h
      injection h with h
      intro x hx
      rw [← h] at hx
      rcases List.mem_map.1 hx with ⟨r, hr, rfl⟩
      right; right; rfl
  · rw [if_neg h1] at h
    by_cases h2 : source = "driver"
    · rw [if_pos h2] at h
      injection h with h
      intro x hx
      rw [← h] at hx
      rcases List.mem_map.1 hx with ⟨r, hr, rfl⟩
      left; rfl
    · rw [if_neg h2] at h
      intro x hx
      rcases findChildCases_tags _ _ _ _ _ _ _ _ h x hx with h' | h'
      · left; exact h'
      · right; left; exact h'

/-- C4 counterexample: no store, source and recursion flag make `get_cases`
yield a system-category case. -/
theorem c4_counterexample :
    ¬ ∃ (st : Store) (source : String) (recurse : Bool)
        (out : List (String × Cat)) (c : String),
      getCasesList st source recurse = .ok out ∧ (c, Cat.system) ∈ out := by
  rintro ⟨st, source, recurse, out, c, hok, hmem⟩
  rcases getCasesList_tags st source recurse out hok (c, Cat.system) hmem with h | h | h <;>
    cases h

/-- C4 amended: `get_cases` never yields a system-category case; the child
resolution consults only the driver and solver coordinate lists. -/
theorem c4_amended (st : Store) (source : String) (recurse : Bool)
    (out : List (String × Cat)) (h : getCasesList st source recurse = .ok out) :
    ∀ x ∈ out, x.2 ≠ Cat.system := by
  intro x hx
  rcases getCasesList_tags st source recurse out h x hx with h' | h' | h' <;> simp [h']

/-- Concrete instantiation of `c4_amended` on a store that does contain a
system coordinate nested under the driver coordinate. -/
theorem c4_witness :
    getCasesList c4store "driver" false = .ok [("rank0:D|0", Cat.driver)] ∧
    (∀ x ∈ [(("rank0:D|0" : String), Cat.driver)], x.2 ≠ Cat.system) :=
  ⟨rfl, c4_amended c4store "driver" false _ rfl⟩

/-- C5 counterexample: a point lookup with no matching row fails with the
unpacking `TypeError`, not with a `CaseNotFound` error. -/
theorem c5_counterexample :
    getCase { formatVersion := 1, table := [], cache := [] } "rank0:SLSQP|0" false
      = .error .typeError ∧ PyErr.typeError ≠ PyErr.caseNotFound :=
  ⟨rfl, by decide⟩

/-- C5 amended: a coordinate with no cache entry and no matching table row
always makes `get_case` fail (with the `TypeError` of unpacking a missing
row); it never silently returns a default case. -/
theorem c5_amended (st : DriverCasesState) (coord : String) (scaled : Bool)
    (hc : st.cache.find? (fun e => e.1 == coord) = none)
    (ht : st.table.find? (fun r => r.coord == coord) = none) :
    getCase st coord scaled = .error .typeError := by
  simp only [getCase, hc, ht]

/-- Concrete instantiation of `c5_amended`. -/
theorem c5_witness :
    (({ formatVersion := 1, table := [], cache := [] } : DriverCasesState).cache.find?
        (fun e => e.1 == "rank0:SLSQP|9") = none) ∧
    (({ formatVersion := 1, table := [], cache := [] } : DriverCasesState).table.find?
        (fun r => r.coord == "rank0:SLSQP|9") = none) ∧
    getCase { formatVersion := 1, table := [], cache := [] } "rank0:SLSQP|9" true
      = .error .typeError :=
  ⟨rfl, rfl, c5_amended { formatVersion := 1, table := [], cache := [] }
    "rank0:SLSQP|9" true rfl rfl⟩

/-- C8: a second `get_case` on the same coordinate returns the cached case
unchanged, with the same store state and no further row extraction. -/
theorem c8_get_case_idempotent (st : DriverCasesState) (coord : String)
    (c : Case) (st' : DriverCasesState) (n : Nat)
    (h : getCase st coord false = .ok (c, st', n)) :
    getCase st' coord false = .ok (c, st', 0) := by
  cases hfind : st.cache.find? (fun e => e.1 == coord) with
  | some e =>
    simp only [getCase, hfind, if_neg (by simp : ¬false = true)] at h
    injection h with h
    injection h with h1 h2
    injection h2 with h2 h3
    subst h1
    subst h2
    simp only [getCase, hfind, if_neg (by simp : ¬false = true)]
  | none =>
    cases hrow : st.table.find? (fun r => r.coord == coord) with
    | none => simp only [getCase, hfind, hrow] at h; cases h
    | some row =>
      simp only [getCase, hfind, hrow, if_neg (by simp : ¬false = true)] at h
      injection h with h
      injection h with h1 h2
      injection h2 with h2 h3
      subst h1
      subst h2
      have hk : (row.coord == coord) = true := by
        have := List.find?_some hrow
        simpa using this
      have hcoord : (extractCaseFromRow st.formatVersion row).iterationCoordinate
          = row.coord := rfl
      simp only [getCase]
      rw [List.find?_cons_of_pos _ (by simpa [hcoord] using hk)]
      rfl

/-- Concrete instantiation of `c8_get_case_idempotent`. -/
theorem c8_witness :
    getCase c8state "rank0:SLSQP|0" false = .ok (c8case, c8state', 1) ∧
    getCase c8state' "rank0:SLSQP|0" false = .ok (c8case, c8state', 0) :=
  ⟨rfl, c8_get_case_idempotent c8state "rank0:SLSQP|0" c8case c8state' 1 rfl⟩

/-- C9: a scaled `get_case` returns a scaled copy; the cache keeps the
unscaled case, which a later unscaled `get_case` returns unchanged. -/
theorem c9_scaled_copy (st : DriverCasesState) (coord : String)
    (c' : Case) (st' : DriverCasesState) (n : Nat)
    (h : getCase st coord true = .ok (c', st', n)) :
    ∃ c : Case, c' = scaleCase c ∧ getCase st' coord false = .ok (c, st', 0) ∧
      (n = 1 → c.isScaled = false) := by
  cases hfind : st.cache.find? (fun e => e.1 == coord) with
  | some e =>
    simp only [getCase, hfind, if_pos (rfl : (true : Bool) = true)] at h
    injection h with h
    injection h with h1 h2
    injection h2 with h2 h3
    refine ⟨e.2, h1.symm, ?_, ?_⟩
    · rw [← h2]
      simp only [getCase, hfind, if_neg (by simp : ¬false = true)]
    · intro hn
      omega
  | none =>
    cases hrow : st.table.find? (fun r => r.coord == coord) with
    | none => simp only [getCase, hfind, hrow] at h; cases h
    | some row =>
      simp only [getCase, hfind, hrow, if_pos (rfl : (true : Bool) = true)] at h
      injection h with h
      injection h with h1 h2
      injection h2 with h2 h3
      refine ⟨extractCaseFromRow st.formatVersion row, h1.symm, ?_, fun _ => rfl⟩
      rw [← h2]
      have hk : (row.coord == coord) = true := by
        have := List.find?_some hrow
        simpa using this
      have hcoord : (extractCaseFromRow st.formatVersion row).iterationCoordinate
          = row.coord := rfl
      simp only [getCase]
      rw [List.find?_cons_of_pos _ (by simpa [hcoord] using hk)]
      rfl

/-- Concrete instantiation of `c9_scaled_copy`. -/
theorem c9_witness :
    getCase c9state "rank0:SLSQP|0" true = .ok (scaleCase c8case, c9state', 1) ∧
    (∃ c : Case, scaleCase c8case = scaleCase c ∧
      getCase c9state' "rank0:SLSQP|0" false = .ok (c, c9state', 0) ∧
      (1 = 1 → c.isScaled = false)) :=
  ⟨rfl, c9_scaled_copy c9state "rank0:SLSQP|0" (scaleCase c8case) c9state' 1 rfl⟩

/-- C6: at the failing store, the hierarchy traversal yields the parent solver
iteration before its child, so the counters come out strictly decreasing where
the spec and the repository's own tests require them strictly increasing. -/
theorem c6_eval :
    getCasesCounters c6store "rank0:SLSQP|0" true = .ok [2, 1] ∧
    List.Chain' (fun a b => b < a) [2, 1] :=
  ⟨rfl, by simp [List.chain'_cons]⟩

/-- C7: for a version-1 store the absence of the `driver_derivatives` or
`problem_cases` table is tolerated with empty key lists, while for any
supported version of at least 2 the open fails. -/
theorem c7_missing_tables :
    (∀ st : Store, ∃ k, loadCaseKeys 1 st = .ok k ∧
      (st.driverDerivatives = none → k.derivKeys = []) ∧
      (st.problemCases = none → k.problemKeys = [])) ∧
    (∀ (v : Nat) (st : Store), 2 ≤ v → v ≤ maxFormatVersion →
      (st.driverDerivatives = none ∨ st.problemCases = none) →
      loadCaseKeys v st = .error .operationalError) := by
  constructor
  · intro st
    unfold loadCaseKeys
    rw [if_pos (by simp [maxFormatVersion])]
    cases hd : st.driverDerivatives with
    | none =>
      cases hp : st.problemCases with
      | none => exact ⟨_, rfl, fun _ => rfl, fun _ => rfl⟩
      | some rows =>
        refine ⟨_, rfl, fun _ => rfl, ?_⟩
        intro hc
        cases hc
    | some rows =>
      cases hp : st.problemCases with
      | none =>
        refine ⟨_, rfl, ?_, fun _ => rfl⟩
        intro hc
        cases hc
      | some rows' =>
        refine ⟨_, rfl, ?_, ?_⟩
        · intro hc; cases hc
        · intro hc; cases hc
  · intro v st hv2 hvmax hnone
    unfold loadCaseKeys
    rw [if_pos (by omega)]
    have h2 : (2 ≤ v) = True := eq_true hv2
    rcases hnone with hd | hp
    · rw [hd]
      simp only [h2, if_true]
      rfl
    · rw [hp]
      cases hd : st.driverDerivatives with
      | none => simp only [h2, if_true]; rfl
      | some rows => simp only [h2, if_true]; rfl

/-- Concrete instantiation of `c7_missing_tables` at versions 1 and 2 on a
store lacking both optional tables. -/
theorem c7_witness :
    (∃ k, loadCaseKeys 1 c7store = .ok k ∧
      (c7store.driverDerivatives = none → k.derivKeys = []) ∧
      (c7store.problemCases = none → k.problemKeys = [])) ∧
    (2 ≤ 2 ∧ 2 ≤ maxFormatVersion ∧
      loadCaseKeys 2 c7store = .error .operationalError) :=
  ⟨c7_missing_tables.1 c7store,
    ⟨by decide, by decide,
      c7_missing_tables.2 2 c7store (by decide) (by decide) (Or.inl rfl)⟩⟩

/-- C10: a source coordinate whose (root-adjusted) segment count is missing
from `coord_lengths` makes `get_cases` fail with the unhandled `ValueError`
of the list-index lookup; membership of that count is exactly the
precondition guarding the lookup. -/
theorem c10_value_error :
    getCasesList c10store "a|1|b|2|c|3|d" true = .error .valueError ∧
    (∀ (fuel : Nat) (p : String) (sp driverIter : List String)
        (solverIter : List (String × Nat)) (r : Bool) (cl : List Nat),
      (if sp.length = 0 then 2 else sp.length) ∉ cl →
      findChildCases (fuel + 1) p sp driverIter solverIter r cl
        = .error .valueError) := by
  constructor
  · rfl
  · intro fuel p sp driverIter solverIter r cl hmem
    have hnone : parLenIdx cl sp.length = none := by
      unfold parLenIdx
      rw [List.findIdx?_eq_none_iff]
      intro x hx
      simp only [decide_eq_false_iff_not]
      intro hx2
      exact hmem (hx2 ▸ hx)
    rw [findChildCases]
    beta_reduce
    rw [hnone]

/-- Concrete instantiation of the precondition direction of
`c10_value_error`. -/
theorem c10_witness :
    ((if ([("a" : String), "b", "c", ""].length = 0) then 2
      else [("a" : String), "b", "c", ""].length) ∉ [2]) ∧
    findChildCases 1 "a|1|b|2|c|3|d" ["a", "b", "c", ""] [] [] true [2]
      = .error .valueError :=
  ⟨by decide, c10_value_error.2 0 "a|1|b|2|c|3|d" ["a", "b", "c", ""] [] [] true [2]
    (by decide)⟩

/-- Concrete instantiation of `c2_root_children`: with no driver coordinates,
the root's children are the solver coordinates at the least non-root depth. -/
theorem c2_witness :
    (∀ s ∈ [(("a|0|b|0" : String), (1 : Nat)), ("a|0", 2)], 2 ≤ numSegs s.1) ∧
    findChildCases 1 "" [] [] [("a|0|b|0", 1), ("a|0", 2)] false
      (computeCoordLengths [("a|0|b|0", 1), ("a|0", 2)])
      = .ok (rootChildrenSpec [] [("a|0|b|0", 1), ("a|0", 2)]) :=
  ⟨by decide, c2_root_children 0 [] [("a|0|b|0", 1), ("a|0", 2)] (by decide)⟩

/-- C3 counterexample: a store holding a three-segment system coordinate and
no solver coordinates; the resolver's `coord_lengths` is `[2]`, while the
sorted set of distinct segment counts across every category is `[2, 3]`. -/
theorem c3_counterexample :
    computeCoordLengths
      ((sortByCounterS c3store.solverIterations).map (fun r => (r.coord, r.counter)))
      = [2] ∧
    coordLengthsSpec (c3store.driverIterations.map (fun r => r.coord))
      (((c3store.driverDerivatives).getD []).map (fun r => r.coord))
      (c3store.systemIterations.map (fun r => r.coord))
      (c3store.solverIterations.map (fun r => r.coord))
      (((c3store.problemCases).getD []).map (fun r => r.caseName))
      = [2, 3] ∧
    ([2] : List Nat) ≠ [2, 3] :=
  ⟨rfl, rfl, by decide⟩

/-- C3 amended: the resolver's `coord_lengths` is the sorted duplicate-free
list whose members are exactly the base driver length 2 together with the
segment counts of the solver-category coordinates; no other category is
consulted. -/
theorem c3_amended (solverIter : List (String × Nat)) :
    (computeCoordLengths solverIter).Sorted (· ≤ ·) ∧
    (computeCoordLengths solverIter).Nodup ∧
    ∀ n, n ∈ computeCoordLengths solverIter ↔
      n = 2 ∨ ∃ s ∈ solverIter, numSegs s.1 = n :=
  ⟨computeCoordLengths_sorted solverIter, computeCoordLengths_nodup solverIter,
    mem_computeCoordLengths solverIter⟩

end OMRead
